import Mathlib

/-!
Shallow embedding of the SOAP-document validation and generation engine
(`src/utils/DocumentValidator.ts` and `src/utils/DocumentGenerator.ts`).

Strings are modelled as `List Char`; JavaScript `toLowerCase`/`toUpperCase`
are modelled per-character; JavaScript number arithmetic on scores is
modelled in `ℚ` with `Math.round` as `round : ℚ → ℤ` (floor of x + 1/2,
which agrees with `Math.round` on halves) and `Math.max` as `max`.
The language-model collaborator of the generator is abstracted as a
function from the attempt counter to an optional response text
(`none` covers both a thrown API error and an empty/missing content,
which the source treats identically via its catch block).
-/

/-- Per-character lower-casing, modelling `String.prototype.toLowerCase`. -/
def lowerL (s : List Char) : List Char := s.map Char.toLower

/-- Per-character upper-casing, modelling `String.prototype.toUpperCase`. -/
def upperL (s : List Char) : List Char := s.map Char.toUpper

/-- Does `l` start with `pat`? -/
def listStartsWith : List Char → List Char → Bool
  | _, [] => true
  | [], _ :: _ => false
  | c :: cs, p :: ps => c == p && listStartsWith cs ps

/-- Substring containment, modelling `String.prototype.includes`. -/
def containsSub : List Char → List Char → Bool
  | [], pat => listStartsWith [] pat
  | c :: t, pat => listStartsWith (c :: t) pat || containsSub t pat

/-- Count of non-overlapping occurrences of `pat` (leftmost-first), with fuel;
models counting matches of a global regex as in `docLower.match(new RegExp(phrase, 'g'))`. -/
def countOccAux (pat : List Char) : Nat → List Char → Nat
  | 0, _ => 0
  | _, [] => 0
  | fuel + 1, c :: rest =>
    if pat ≠ [] && listStartsWith (c :: rest) pat then
      1 + countOccAux pat fuel (List.drop (pat.length - 1) rest)
    else
      countOccAux pat fuel rest

/-- Count of non-overlapping occurrences of `pat` in `l`. -/
def countOcc (l pat : List Char) : Nat := countOccAux pat l.length l

/-- `ValidationIssue.type` values. -/
inductive IssueType where
  | error
  | warning
  | info
deriving DecidableEq

/-- `ValidationIssue.category` values. -/
inductive IssueCategory where
  | disease_mention
  | patient_specificity
  | medical_authenticity
  | «structure»
deriving DecidableEq

/-- The `ValidationIssue` interface. -/
structure ValidationIssue where
  type : IssueType
  category : IssueCategory
  message : List Char
  severity : Nat
  suggestion : Option (List Char) := none
deriving DecidableEq

/-- The `ValidationResult` interface. -/
structure ValidationResult where
  isValid : Bool
  score : ℤ
  issues : List ValidationIssue
  summary : List Char
deriving DecidableEq

/-- The `ValidationOptions` interface. -/
structure ValidationOptions where
  disease : List Char
  patientAge : Option ℤ := none
  patientGender : Option (List Char) := none
  patientRace : Option (List Char) := none
  strictMode : Option Bool := none
  allowedDiseaseVariations : Option (List (List Char)) := none
deriving DecidableEq

/-- The `medicalTerms` set from the `DocumentValidator` constructor
(all 27 entries are distinct, so the JS `Set` keeps them all, in insertion order). -/
def medicalTerms : List (List Char) :=
  ["blood pressure", "heart rate", "temperature", "respiratory rate",
   "pulse", "oxygen saturation", "weight", "height", "bmi",
   "vital signs", "physical examination", "assessment", "plan",
   "history", "symptoms", "complaint", "medication", "allergies",
   "follow-up", "patient", "presents", "reports", "denies",
   "examination reveals", "normal", "abnormal", "within normal limits"].map String.toList

/-- The `structuralRequirements` list from the constructor. -/
def structuralRequirements : List (List Char) :=
  ["subjective", "objective", "assessment", "plan"].map String.toList

/-- The `authenticityIndicators` list from the constructor (unused by the checks). -/
def authenticityIndicators : List (List Char) :=
  ["vital signs", "chief complaint", "history of present illness",
   "physical exam", "clinical impression", "treatment plan",
   "medications", "follow-up", "patient education"].map String.toList

/-- The local `obviousTerms` list of `validateDiseaseSubtlety`. -/
def obviousTerms : List (List Char) :=
  ["diagnosed with", "diagnosis of", "confirmed diagnosis",
   "shows signs of", "consistent with", "suggestive of"].map String.toList

/-- Result of the JS member access `variations[disease.toLowerCase()]` in
`getDiseaseVariations`, BEFORE the `|| []` fallback.  A plain object literal
inherits `Object.prototype`, so besides the eight own entries (arrays) the
member access can also find an inherited, truthy, non-array value: this
happens exactly for the keys "constructor" (the inherited `Object` function)
and "__proto__" (the inherited accessor, yielding `Object.prototype`), the
only all-lowercase `Object.prototype` member names — every other inherited
name ("toString", "hasOwnProperty", ...) contains an uppercase letter and can
never equal the lowercased key.  Any other key yields `undefined`. -/
inductive DiseaseVariationsLookup where
  | arr (variations : List (List Char))
  | inheritedNonArray
  | undef
deriving DecidableEq

/-- The member access `variations[disease.toLowerCase()]` of
`getDiseaseVariations`, including the `Object.prototype` chain. -/
def diseaseVariationsLookup (disease : List Char) : DiseaseVariationsLookup :=
  let key := lowerL disease
  if key = "hypertension".toList then
    DiseaseVariationsLookup.arr
      (["high blood pressure", "htn", "elevated bp", "hypertensive"].map String.toList)
  else if key = "diabetes".toList then
    DiseaseVariationsLookup.arr
      (["dm", "diabetes mellitus", "diabetic", "high blood sugar",
        "hyperglycemia"].map String.toList)
  else if key = "asthma".toList then
    DiseaseVariationsLookup.arr
      (["reactive airway disease", "bronchial asthma", "asthmatic"].map String.toList)
  else if key = "depression".toList then
    DiseaseVariationsLookup.arr
      (["major depressive disorder", "mdd", "depressive disorder",
        "depressed"].map String.toList)
  else if key = "anxiety".toList then
    DiseaseVariationsLookup.arr
      (["anxiety disorder", "anxious", "generalized anxiety", "gad"].map String.toList)
  else if key = "obesity".toList then
    DiseaseVariationsLookup.arr
      (["overweight", "obese", "increased bmi", "weight management"].map String.toList)
  else if key = "migraine".toList then
    DiseaseVariationsLookup.arr
      (["headache", "cephalgia", "migrainous"].map String.toList)
  else if key = "copd".toList then
    DiseaseVariationsLookup.arr
      (["chronic obstructive pulmonary disease", "emphysema",
        "chronic bronchitis"].map String.toList)
  else if key = "constructor".toList then DiseaseVariationsLookup.inheritedNonArray
  else if key = "__proto__".toList then DiseaseVariationsLookup.inheritedNonArray
  else DiseaseVariationsLookup.undef

/-- `getDiseaseVariations` on the inputs where it completes normally:
`variations[disease.toLowerCase()] || []` — the own array when the key is one
of the eight entries, `[]` for `undefined`.  For the two inherited non-array
results the `|| []` fallback does not engage and the CALLER's
`diseaseVariations.forEach` throws a `TypeError`; that error path is modelled
by `validateDiseaseSubtletyJs` below, and this total function is the value
the rest of the validator consumes whenever no exception occurs. -/
def getDiseaseVariations (disease : List Char) : List (List Char) :=
  match diseaseVariationsLookup disease with
  | DiseaseVariationsLookup.arr variations => variations
  | _ => []

/-- `getAgeSpecificTerms`. -/
def getAgeSpecificTerms (age : ℤ) : List (List Char) :=
  if age < 18 then
    ["pediatric", "adolescent", "growth", "development", "school", "parent"].map String.toList
  else if 65 ≤ age then
    ["elderly", "geriatric", "aging", "retirement", "medicare", "senior"].map String.toList
  else
    ["adult", "working", "occupation", "family history", "lifestyle"].map String.toList

/-- The severity-10 exact-mention issue that `validateDiseaseSubtlety` pushes. -/
def exactDiseaseIssue (disease : List Char) : ValidationIssue :=
  { type := IssueType.error
    category := IssueCategory.disease_mention
    message := "Disease name \"".toList ++ disease ++ "\" found explicitly in document".toList
    severity := 10
    suggestion := some "Remove explicit disease mentions and use subtle clinical presentations instead".toList }

/-- The severity-7 issue that `validateDiseaseSubtlety` pushes for a known variation. -/
def variationIssue (variation : List Char) : ValidationIssue :=
  { type := IssueType.warning
    category := IssueCategory.disease_mention
    message := "Disease variation \"".toList ++ variation ++ "\" found in document".toList
    severity := 7
    suggestion := some "Consider using more subtle clinical terminology".toList }

/-- The severity-4 issue that `validateDiseaseSubtlety` pushes for obvious
diagnostic language. -/
def obviousLanguageIssue (term : List Char) : ValidationIssue :=
  { type := IssueType.warning
    category := IssueCategory.disease_mention
    message := "Potentially obvious diagnostic language found: \"".toList ++ term ++ "\"".toList
    severity := 4
    suggestion := some "Use more subtle clinical language to maintain subtlety".toList }

/-- `validateDiseaseSubtlety`: exact disease mention (error, severity 10),
known variations (warning, severity 7), obvious diagnostic phrases (warning, severity 4). -/
def validateDiseaseSubtlety (document : List Char) (options : ValidationOptions) :
    List ValidationIssue :=
  let docLower := lowerL document
  let diseaseLower := lowerL options.disease
  (if containsSub docLower diseaseLower then [exactDiseaseIssue options.disease] else [])
  ++ (getDiseaseVariations options.disease).filterMap (fun variation =>
    if containsSub docLower (lowerL variation) then some (variationIssue variation) else none)
  ++ obviousTerms.filterMap (fun term =>
    if containsSub docLower term then some (obviousLanguageIssue term) else none)

/-- `validateGenderSpecificity`. -/
def validateGenderSpecificity (document : List Char) (gender : List Char) :
    List ValidationIssue :=
  let docLower := lowerL document
  let expectedPronouns : List (List Char) :=
    if lowerL gender = "male".toList then ["he", "him", "his"].map String.toList
    else ["she", "her"].map String.toList
  let foundPronouns := expectedPronouns.filter (fun pronoun => containsSub docLower pronoun)
  if foundPronouns.length = 0 then
    [{ type := IssueType.info
       category := IssueCategory.patient_specificity
       message := "Document lacks gender-appropriate pronouns for ".toList ++ gender ++ " patient".toList
       severity := 2
       suggestion := some "Consider including appropriate pronouns to personalize the record".toList }]
  else []

/-- `validateDemographicConsiderations`: a placeholder that produces no issues. -/
def validateDemographicConsiderations (_document : List Char) (_race : List Char) :
    List ValidationIssue :=
  []

/-- The local `genericPhrases` list of `validatePatientSpecificity`. -/
def genericPhrases : List (List Char) :=
  ["the patient", "patient reports", "patient denies", "patient presents"].map String.toList

/-- `validatePatientSpecificity`.  Note the JS truthiness guards:
`if (options.patientAge)` skips the age check when the age is absent or `0`,
and `if (options.patientGender)` / `if (options.patientRace)` skip on absent
or empty strings. -/
def validatePatientSpecificity (document : List Char) (options : ValidationOptions) :
    List ValidationIssue :=
  let docLower := lowerL document
  (match options.patientAge with
   | none => []
   | some age =>
     if age = 0 then []
     else
       let ageSpecificTerms := getAgeSpecificTerms age
       let foundAgeTerms := ageSpecificTerms.filter (fun term => containsSub docLower (lowerL term))
       if foundAgeTerms.length = 0 then
         [{ type := IssueType.warning
            category := IssueCategory.patient_specificity
            message := "Document lacks age-appropriate content for ".toList ++ (toString age).toList ++ "-year-old patient".toList
            severity := 3
            suggestion := some "Include age-relevant clinical considerations and terminology".toList }]
       else [])
  ++ (match options.patientGender with
      | none => []
      | some gender => if gender = [] then [] else validateGenderSpecificity document gender)
  ++ (match options.patientRace with
      | none => []
      | some race => if race = [] then [] else validateDemographicConsiderations document race)
  ++ (let genericCount := (genericPhrases.map (fun phrase => countOcc docLower phrase)).sum
      if 10 < genericCount then
        [{ type := IssueType.info
           category := IssueCategory.patient_specificity
           message := "Document uses many generic patient references".toList
           severity := 2
           suggestion := some "Consider adding more specific patient details and personalized presentation".toList }]
      else [])

/-- The local `vitalSigns` list of `validateMedicalAuthenticity`. -/
def vitalSigns : List (List Char) :=
  ["blood pressure", "heart rate", "temperature", "respiratory rate"].map String.toList

/-- The local `informalTerms` list of `validateMedicalAuthenticity`. -/
def informalTerms : List (List Char) :=
  ["feels", "seems", "looks", "appears to be", "maybe", "probably"].map String.toList

/-- The local `workflowElements` list of `validateMedicalAuthenticity`. -/
def workflowElements : List (List Char) :=
  ["chief complaint", "history", "examination", "assessment", "plan"].map String.toList

/-- Remove the first space of a phrase, modelling `element.replace(' ', '')`
(JS `replace` with a string pattern replaces only the first occurrence). -/
def removeFirstSpace : List Char → List Char
  | [] => []
  | c :: rest => if c = ' ' then rest else c :: removeFirstSpace rest

/-- `validateMedicalAuthenticity`. -/
def validateMedicalAuthenticity (document : List Char) : List ValidationIssue :=
  let docLower := lowerL document
  (let foundVitals := vitalSigns.filter (fun vital => containsSub docLower vital)
   if foundVitals.length < 2 then
     [{ type := IssueType.warning
        category := IssueCategory.medical_authenticity
        message := "Document lacks sufficient vital signs measurements".toList
        severity := 5
        suggestion := some "Include realistic vital signs in the objective section".toList }]
   else [])
  ++ (let medicalTermCount := (medicalTerms.filter (fun term => containsSub docLower term)).length
      if medicalTermCount < 5 then
        [{ type := IssueType.warning
           category := IssueCategory.medical_authenticity
           message := "Document lacks sufficient medical terminology".toList
           severity := 4
           suggestion := some "Include more clinical terminology to enhance authenticity".toList }]
      else [])
  ++ (let hasNumericValues := document.any Char.isDigit
      if !hasNumericValues then
        [{ type := IssueType.warning
           category := IssueCategory.medical_authenticity
           message := "Document lacks numeric measurements or values".toList
           severity := 6
           suggestion := some "Include realistic vital signs, lab values, or measurements".toList }]
      else [])
  ++ (let foundInformal := informalTerms.filter (fun term => containsSub docLower term)
      if 2 < foundInformal.length then
        [{ type := IssueType.warning
           category := IssueCategory.medical_authenticity
           message := "Document contains informal medical language".toList
           severity := 3
           suggestion := some "Use more precise, professional medical terminology".toList }]
      else [])
  ++ (let foundElements := workflowElements.filter (fun element =>
        containsSub docLower element || containsSub docLower (removeFirstSpace element))
      if foundElements.length < 3 then
        [{ type := IssueType.warning
           category := IssueCategory.medical_authenticity
           message := "Document lacks complete clinical workflow elements".toList
           severity := 4
           suggestion := some "Ensure all major clinical workflow components are present".toList }]
      else [])

/-- The local `soapSections` list of `validateDocumentStructure`. -/
def soapSections : List (List Char) :=
  ["subjective", "objective", "assessment", "plan"].map String.toList

/-- The issue pushed for a missing SOAP section. -/
def missingSectionIssue (sect : List Char) : ValidationIssue :=
  { type := IssueType.error
    category := IssueCategory.«structure»
    message := "Missing SOAP section: ".toList ++ upperL sect
    severity := 8
    suggestion := some ("Add the ".toList ++ upperL sect ++ " section to complete SOAP format".toList) }

/-- `validateDocumentStructure`. -/
def validateDocumentStructure (document : List Char) : List ValidationIssue :=
  let docLower := lowerL document
  let missingSections := soapSections.filter (fun sect => !containsSub docLower sect)
  (missingSections.map missingSectionIssue)
  ++ (if document.length < 200 then
       [{ type := IssueType.warning
          category := IssueCategory.«structure»
          message := "Document appears too short for a complete SOAP note".toList
          severity := 5
          suggestion := some "Expand the document with more clinical details".toList }]
     else [])
  ++ (if 3000 < document.length then
       [{ type := IssueType.info
          category := IssueCategory.«structure»
          message := "Document is quite lengthy for a typical SOAP note".toList
          severity := 2
          suggestion := some "Consider condensing to focus on key clinical points".toList }]
     else [])

/-- Stable insertion into a list kept in descending severity order. -/
def insertIssue (a : ValidationIssue) : List ValidationIssue → List ValidationIssue
  | [] => [a]
  | b :: rest => if b.severity ≤ a.severity then a :: b :: rest else b :: insertIssue a rest

/-- Stable descending-severity sort, modelling
`issues.sort((a, b) => b.severity - a.severity)` (ES2019 `Array.prototype.sort` is stable). -/
def sortIssues (l : List ValidationIssue) : List ValidationIssue := l.foldr insertIssue []

/-- `generateSummary`. -/
def generateSummary (score : ℤ) (issues : List ValidationIssue) (_isValid : Bool) : List Char :=
  let errorCount := (issues.filter (fun i => decide (i.type = IssueType.error))).length
  let warningCount := (issues.filter (fun i => decide (i.type = IssueType.warning))).length
  let counts := (toString errorCount).toList ++ " errors, ".toList
    ++ (toString warningCount).toList ++ " warnings.".toList
  if 90 ≤ score then
    "Excellent SOAP document (".toList ++ (toString score).toList ++ "/100). ".toList ++ counts
  else if 80 ≤ score then
    "Good SOAP document (".toList ++ (toString score).toList ++ "/100). ".toList ++ counts
  else if 70 ≤ score then
    "Acceptable SOAP document (".toList ++ (toString score).toList ++ "/100). ".toList ++ counts
  else
    "Poor SOAP document (".toList ++ (toString score).toList
      ++ "/100). Needs improvement. ".toList ++ counts

/-- `validateDocument`: runs the four checks, aggregates the weighted score,
clamps/rounds it, derives validity, and returns the descending-severity-sorted issues. -/
def validateDocument (document : List Char) (options : ValidationOptions) : ValidationResult :=
  let diseaseIssues := validateDiseaseSubtlety document options
  let patientIssues := validatePatientSpecificity document options
  let authenticityIssues := validateMedicalAuthenticity document
  let structureIssues := validateDocumentStructure document
  let issues := diseaseIssues ++ patientIssues ++ authenticityIssues ++ structureIssues
  let rawScore : ℚ :=
    (100 : ℚ)
      - (diseaseIssues.map (fun issue => (issue.severity : ℚ))).sum
      - (patientIssues.map (fun issue => (issue.severity : ℚ) * 0.5)).sum
      - (authenticityIssues.map (fun issue => (issue.severity : ℚ) * 0.7)).sum
      - (structureIssues.map (fun issue => (issue.severity : ℚ) * 0.3)).sum
  let score : ℤ := max 0 (round rawScore)
  let isValid := decide (70 ≤ score) &&
    !(issues.any fun issue =>
      decide (issue.type = IssueType.error) && decide (issue.category = IssueCategory.disease_mention))
  let sortedIssues := sortIssues issues
  { isValid := isValid
    score := score
    issues := sortedIssues
    summary := generateSummary score sortedIssues isValid }

/-- `validateMultipleDocuments`: sequential, order-preserving batch validation. -/
def validateMultipleDocuments (documents : List (List Char × ValidationOptions)) :
    List ValidationResult :=
  documents.map (fun doc => validateDocument doc.1 doc.2)

/-- JS exceptions that escape the validator. -/
inductive JsError where
  | typeError
deriving DecidableEq

/-- `validateDiseaseSubtlety` as the program actually executes it: when the
variation lookup finds an inherited truthy non-array (disease lowercasing to
"constructor" or "__proto__"), the `|| []` fallback does not engage and
`diseaseVariations.forEach` at the call site throws a `TypeError`; on every
other input the pass completes and produces exactly the issues of
`validateDiseaseSubtlety`. -/
def validateDiseaseSubtletyJs (document : List Char) (options : ValidationOptions) :
    Except JsError (List ValidationIssue) :=
  match diseaseVariationsLookup options.disease with
  | DiseaseVariationsLookup.inheritedNonArray => Except.error JsError.typeError
  | _ => Except.ok (validateDiseaseSubtlety document options)

/-- `validateDocument` as the program actually executes it.  The disease
-subtlety pass is the validator's only throw site (the remaining passes,
aggregation, sort and summary use only total operations), so the function
rejects exactly when that pass throws and otherwise returns the
`validateDocument` result. -/
def validateDocumentJs (document : List Char) (options : ValidationOptions) :
    Except JsError ValidationResult :=
  match validateDiseaseSubtletyJs document options with
  | Except.error e => Except.error e
  | Except.ok _ => Except.ok (validateDocument document options)

/-- The `DocumentGenerationOptions` interface of `DocumentGenerator.ts`. -/
structure DocumentGenerationOptions where
  disease : List Char
  model : Option (List Char) := none
  patientAge : Option ℤ := none
  patientGender : Option (List Char) := none
  patientRace : Option (List Char) := none
  validateDocument : Option Bool := none
  maxRetries : Option Nat := none
deriving DecidableEq

/-- The `SOAPDocument` interface. -/
structure SOAPDocument where
  subjective : List Char
  objective : List Char
  assessment : List Char
  plan : List Char
  fullDocument : List Char
  validation : Option ValidationResult := none
deriving DecidableEq

/-- Generation error outcomes: `generationFailed` models the
`Failed to generate SOAP document after N attempts` throw of the catch block,
`noDocumentGenerated` the final `Failed to generate any valid SOAP document` throw. -/
inductive GenError where
  | generationFailed
  | noDocumentGenerated
deriving DecidableEq

/-- Whitespace as matched by the regex class `\s` (ASCII part). -/
def jsWhitespace (c : Char) : Bool :=
  c == ' ' || c == '\t' || c == '\n' || c == '\r' || c == Char.ofNat 11 || c == Char.ofNat 12

/-- `String.prototype.trim`. -/
def trimL (l : List Char) : List Char :=
  ((l.dropWhile jsWhitespace).reverse.dropWhile jsWhitespace).reverse

/-- Index of the first occurrence of `pat` in `l`, if any. -/
def indexOfSub : List Char → List Char → Option Nat
  | [], pat => if listStartsWith [] pat then some 0 else none
  | c :: t, pat =>
    if listStartsWith (c :: t) pat then some 0
    else (indexOfSub t pat).map (· + 1)

/-- Section extraction of `parseSOAPDocument`, modelling the regex
`/HEADER:?\s*([\s\S]*?)(?=NEXT:|$)/i`: the match anchors at the first
case-insensitive occurrence of the header, consumes an optional colon and
greedy whitespace, and lazily captures up to the first occurrence of the
next header followed by a colon (or to the end of the text); the captured
text is then trimmed.  A missing header leaves the section empty. -/
def extractSection (content : List Char) (header : List Char) (next : Option (List Char)) :
    List Char :=
  match indexOfSub (lowerL content) (lowerL header) with
  | none => []
  | some i =>
    let afterHeader := content.drop (i + header.length)
    let afterColon := match afterHeader with
      | ':' :: rest => rest
      | l => l
    let body := afterColon.dropWhile jsWhitespace
    let captured := match next with
      | none => body
      | some nextHeader =>
        match indexOfSub (lowerL body) (lowerL (nextHeader ++ [':'])) with
        | some k => body.take k
        | none => body
    trimL captured

/-- `parseSOAPDocument`. -/
def parseSOAPDocument (content : List Char) : SOAPDocument :=
  { subjective := extractSection content "SUBJECTIVE".toList (some "OBJECTIVE".toList)
    objective := extractSection content "OBJECTIVE".toList (some "ASSESSMENT".toList)
    assessment := extractSection content "ASSESSMENT".toList (some "PLAN".toList)
    plan := extractSection content "PLAN".toList none
    fullDocument := content
    validation := none }

/-- The collaborator response for a given attempt: `none` models a thrown
API error; a returned empty content is also funnelled into the failure path
by `if (!content) throw ...`. -/
def contentAt (behaviour : Nat → Option (List Char)) (n : Nat) : Option (List Char) :=
  match behaviour n with
  | none => none
  | some c => if c = [] then none else some c

/-- The `ValidationOptions` built inside the retry loop for a given attempt
(`strictMode: attempts > 0`). -/
def attemptValidationOptions (disease : List Char) (age : ℤ) (gender race : List Char)
    (attempts : Nat) : ValidationOptions :=
  { disease := disease
    patientAge := some age
    patientGender := some gender
    patientRace := some race
    strictMode := some (decide (0 < attempts))
    allowedDiseaseVariations := none }

/-- The parsed-and-validated document of attempt `n`, when the collaborator
produced usable content on that attempt. -/
def attemptDoc (disease : List Char) (age : ℤ) (gender race : List Char)
    (behaviour : Nat → Option (List Char)) (n : Nat) :
    Option (SOAPDocument × ValidationResult) :=
  match contentAt behaviour n with
  | none => none
  | some content =>
    let validation := validateDocument content (attemptValidationOptions disease age gender race n)
    some ({ parseSOAPDocument content with validation := some validation }, validation)

/-- Whether attempt `n` yields a document that passes validation. -/
def attemptValid (disease : List Char) (age : ℤ) (gender race : List Char)
    (behaviour : Nat → Option (List Char)) (n : Nat) : Bool :=
  match attemptDoc disease age gender race behaviour n with
  | some (_, v) => v.isValid
  | none => false

/-- The best-candidate update of the retry loop:
`else if (!bestDocument || validation.score > (bestValidation?.score || 0))`. -/
def updateBest (best : Option (SOAPDocument × ValidationResult))
    (x : SOAPDocument × ValidationResult) : Option (SOAPDocument × ValidationResult) :=
  match best with
  | none => some x
  | some (bestDocument, bestValidation) =>
    if bestValidation.score < x.2.score then some x else some (bestDocument, bestValidation)

/-- The `while (attempts <= maxRetries)` retry loop of `generateSOAPDocument`.
`fuel` is the number of loop iterations still allowed,
i.e. `maxRetries + 1 - attempts`; the catch block's
`attempts++; if (attempts > maxRetries) throw` corresponds to the `fuel = 0`
test in the collaborator-failure branch, and the normal loop exit (return the
best candidate, or throw if none) to the `fuel = 0` pattern. -/
def genLoop (disease : List Char) (age : ℤ) (gender race : List Char) (validate : Bool)
    (behaviour : Nat → Option (List Char)) :
    Nat → Nat → Option (SOAPDocument × ValidationResult) → Except GenError SOAPDocument
  | _, 0, best =>
    match best with
    | some (bestDocument, _) => Except.ok bestDocument
    | none => Except.error GenError.noDocumentGenerated
  | attempts, fuel + 1, best =>
    match contentAt behaviour attempts with
    | none =>
      if fuel = 0 then Except.error GenError.generationFailed
      else genLoop disease age gender race validate behaviour (attempts + 1) fuel best
    | some content =>
      let document := parseSOAPDocument content
      if validate then
        let validation :=
          validateDocument content (attemptValidationOptions disease age gender race attempts)
        let doc := { document with validation := some validation }
        if validation.isValid then Except.ok doc
        else genLoop disease age gender race validate behaviour (attempts + 1) fuel
          (updateBest best (doc, validation))
      else Except.ok document

/-- `generateSOAPDocument`.  The defaults that the source draws from
`Math.random()` (`patientAge`, `patientGender`) are supplied as explicit
parameters `randAge` / `randMale`; `behaviour` abstracts the language-model
collaborator as a function of the attempt counter. -/
def generateSOAPDocument (options : DocumentGenerationOptions) (randAge : ℤ) (randMale : Bool)
    (behaviour : Nat → Option (List Char)) : Except GenError SOAPDocument :=
  let disease := options.disease
  let patientAge := options.patientAge.getD randAge
  let patientGender := options.patientGender.getD
    (if randMale then "Male".toList else "Female".toList)
  let patientRace := options.patientRace.getD "Not specified".toList
  let validate := options.validateDocument.getD true
  let maxRetries := options.maxRetries.getD 2
  genLoop disease patientAge patientGender patientRace validate behaviour 0 (maxRetries + 1) none

/-- The parsed attempt documents of the first `count` attempts, in order. -/
def attemptCandidates (disease : List Char) (age : ℤ) (gender race : List Char)
    (behaviour : Nat → Option (List Char)) (count : Nat) :
    List (SOAPDocument × ValidationResult) :=
  (List.range count).filterMap (attemptDoc disease age gender race behaviour)

/-- The per-category weights of the aggregation formula
(`×1.0` disease, `×0.5` patient, `×0.7` authenticity, `×0.3` structure). -/
def categoryWeight : IssueCategory → ℚ
  | IssueCategory.disease_mention => 1
  | IssueCategory.patient_specificity => 0.5
  | IssueCategory.medical_authenticity => 0.7
  | IssueCategory.«structure» => 0.3

/-- The weighted severity sum `Σ (severity × category_weight)` over a list of issues. -/
def weightedSeveritySum (issues : List ValidationIssue) : ℚ :=
  (issues.map (fun i => (i.severity : ℚ) * categoryWeight i.category)).sum

/-- The summary prefix demanded for each score bucket. -/
def summaryBucket (score : ℤ) : List Char :=
  if 90 ≤ score then "Excellent".toList
  else if 80 ≤ score then "Good".toList
  else if 70 ≤ score then "Acceptable".toList
  else "Poor".toList

/-- The default `patientAge` resolution of `generateSOAPDocument`
(`patientAge = Math.floor(Math.random() * 60) + 20` when absent; the random
draw is the explicit parameter `randAge`). -/
def resolvedAge (options : DocumentGenerationOptions) (randAge : ℤ) : ℤ :=
  options.patientAge.getD randAge

/-- The default `patientGender` resolution of `generateSOAPDocument`
(`Math.random() > 0.5 ? 'Male' : 'Female'` when absent; the coin is the
explicit parameter `randMale`). -/
def resolvedGender (options : DocumentGenerationOptions) (randMale : Bool) : List Char :=
  options.patientGender.getD (if randMale then "Male".toList else "Female".toList)

/-- The default `patientRace` resolution of `generateSOAPDocument`. -/
def resolvedRace (options : DocumentGenerationOptions) : List Char :=
  options.patientRace.getD "Not specified".toList

/-- The default `maxRetries` resolution of `generateSOAPDocument`. -/
def resolvedMaxRetries (options : DocumentGenerationOptions) : Nat :=
  options.maxRetries.getD 2

/-- Concrete generation options used to exercise the retry loop. -/
def cexOptions : DocumentGenerationOptions :=
  { disease := "hypertension".toList
    patientAge := some 45
    patientGender := some "Male".toList
    patientRace := some "White".toList
    validateDocument := some true
    maxRetries := some 1 }

/-- A collaborator behaviour whose first attempt parses (but leaks the disease
name) and whose second attempt fails at the collaborator level. -/
def cexBehaviour : Nat → Option (List Char) :=
  fun n => if n = 0 then some "hypertension".toList else none

/-- A collaborator behaviour that always returns the same disease-leaking
(hence invalid) document. -/
def wBehaviour : Nat → Option (List Char) :=
  fun _ => some "Patient has hypertension.".toList

theorem insertIssue_perm (a : ValidationIssue) (l : List ValidationIssue) :
    List.Perm (insertIssue a l) (a :: l) := by
  induction l with
  | nil => simp [insertIssue]
  | cons b rest ih =>
    simp only [insertIssue]
    split
    · exact List.Perm.refl _
    · exact (ih.cons b).trans (List.Perm.swap a b rest)

theorem sortIssues_perm (l : List ValidationIssue) : List.Perm (sortIssues l) l := by
  induction l with
  | nil => simp [sortIssues]
  | cons x xs ih =>
    have h : sortIssues (x :: xs) = insertIssue x (sortIssues xs) := rfl
    rw [h]
    exact (insertIssue_perm x (sortIssues xs)).trans (ih.cons x)

theorem pairwise_insertIssue (a : ValidationIssue) (l : List ValidationIssue)
    (h : l.Pairwise (fun x y => y.severity ≤ x.severity)) :
    (insertIssue a l).Pairwise (fun x y => y.severity ≤ x.severity) := by
  induction l with
  | nil => simp [insertIssue]
  | cons b rest ih =>
    rw [List.pairwise_cons] at h
    simp only [insertIssue]
    split
    · rename_i hba
      refine List.Pairwise.cons ?_ (List.pairwise_cons.mpr h)
      intro x hx
      rcases List.mem_cons.mp hx with rfl | hx
      · exact hba
      · exact le_trans (h.1 x hx) hba
    · rename_i hba
      push_neg at hba
      refine List.Pairwise.cons ?_ (ih h.2)
      intro x hx
      rcases List.mem_cons.mp ((insertIssue_perm a rest).mem_iff.mp hx) with rfl | hx
      · exact le_of_lt hba
      · exact h.1 x hx

theorem sortIssues_pairwise (l : List ValidationIssue) :
    (sortIssues l).Pairwise (fun x y => y.severity ≤ x.severity) := by
  induction l with
  | nil => simp [sortIssues]
  | cons x xs ih => exact pairwise_insertIssue x (sortIssues xs) ih

theorem mem_ite_singleton {α : Type} {c : Prop} [Decidable c] {x i : α}
    (h : i ∈ if c then [x] else ([] : List α)) : i = x := by
  split at h
  · simpa using h
  · simp at h

theorem validateDiseaseSubtlety_category (d : List Char) (o : ValidationOptions) :
    ∀ i ∈ validateDiseaseSubtlety d o, i.category = IssueCategory.disease_mention := by
  intro i hi
  simp only [validateDiseaseSubtlety, List.mem_append, List.mem_filterMap] at hi
  rcases hi with (hi | ⟨v, _, hv⟩) | ⟨t, _, ht⟩
  · rw [mem_ite_singleton hi]; rfl
  · split at hv
    · cases hv; rfl
    · cases hv
  · split at ht
    · cases ht; rfl
    · cases ht

theorem validateDiseaseSubtlety_severity (d : List Char) (o : ValidationOptions)
    (hex : containsSub (lowerL d) (lowerL o.disease) = false) :
    ∀ i ∈ validateDiseaseSubtlety d o, i.severity = 7 ∨ i.severity = 4 := by
  intro i hi
  simp only [validateDiseaseSubtlety, hex, Bool.false_eq_true, if_false, List.nil_append,
    List.mem_append, List.mem_filterMap] at hi
  rcases hi with ⟨v, _, hv⟩ | ⟨t, _, ht⟩
  · split at hv
    · cases hv; left; rfl
    · cases hv
  · split at ht
    · cases ht; right; rfl
    · cases ht

theorem validateGenderSpecificity_shape (d g : List Char) :
    ∀ i ∈ validateGenderSpecificity d g,
      i.category = IssueCategory.patient_specificity ∧ i.severity = 2 := by
  intro i hi
  simp only [validateGenderSpecificity] at hi
  split at hi
  · rw [mem_ite_singleton hi]; exact ⟨rfl, rfl⟩
  · rw [mem_ite_singleton hi]; exact ⟨rfl, rfl⟩

theorem validatePatientSpecificity_shape (d : List Char) (o : ValidationOptions) :
    ∀ i ∈ validatePatientSpecificity d o,
      i.category = IssueCategory.patient_specificity ∧ (i.severity = 3 ∨ i.severity = 2) := by
  intro i hi
  simp only [validatePatientSpecificity, List.mem_append] at hi
  rcases hi with ((hi | hi) | hi) | hi
  · split at hi
    · simp at hi
    · split at hi
      · simp at hi
      · split at hi
        · simp at hi; subst hi; exact ⟨rfl, Or.inl rfl⟩
        · simp at hi
  · split at hi
    · simp at hi
    · split at hi
      · simp at hi
      · have := validateGenderSpecificity_shape d _ i hi
        exact ⟨this.1, Or.inr this.2⟩
  · split at hi
    · simp at hi
    · split at hi
      · simp at hi
      · simp [validateDemographicConsiderations] at hi
  · split at hi
    · simp at hi; subst hi; exact ⟨rfl, Or.inr rfl⟩
    · simp at hi

theorem validateMedicalAuthenticity_category (d : List Char) :
    ∀ i ∈ validateMedicalAuthenticity d, i.category = IssueCategory.medical_authenticity := by
  intro i hi
  simp only [validateMedicalAuthenticity, List.mem_append] at hi
  rcases hi with (((hi | hi) | hi) | hi) | hi <;> rw [mem_ite_singleton hi]

theorem validateDocumentStructure_category (d : List Char) :
    ∀ i ∈ validateDocumentStructure d, i.category = IssueCategory.«structure» := by
  intro i hi
  simp only [validateDocumentStructure, List.mem_append, List.mem_map] at hi
  rcases hi with ((⟨s, _, hs⟩ | hi) | hi)
  · rw [← hs]; rfl
  · rw [mem_ite_singleton hi]
  · rw [mem_ite_singleton hi]

theorem validateDocument_score (d : List Char) (o : ValidationOptions) :
    (validateDocument d o).score =
      max 0 (round ((100 : ℚ)
        - ((validateDiseaseSubtlety d o).map (fun issue => (issue.severity : ℚ))).sum
        - ((validatePatientSpecificity d o).map (fun issue => (issue.severity : ℚ) * 0.5)).sum
        - ((validateMedicalAuthenticity d).map (fun issue => (issue.severity : ℚ) * 0.7)).sum
        - ((validateDocumentStructure d).map (fun issue => (issue.severity : ℚ) * 0.3)).sum)) := rfl

theorem validateDocument_issues (d : List Char) (o : ValidationOptions) :
    (validateDocument d o).issues =
      sortIssues (validateDiseaseSubtlety d o ++ validatePatientSpecificity d o
        ++ validateMedicalAuthenticity d ++ validateDocumentStructure d) := rfl

theorem validateDocument_isValid (d : List Char) (o : ValidationOptions) :
    (validateDocument d o).isValid =
      (decide (70 ≤ (validateDocument d o).score) &&
        !((validateDiseaseSubtlety d o ++ validatePatientSpecificity d o
            ++ validateMedicalAuthenticity d ++ validateDocumentStructure d).any fun issue =>
          decide (issue.type = IssueType.error) &&
          decide (issue.category = IssueCategory.disease_mention))) := rfl

theorem validateDocument_summary (d : List Char) (o : ValidationOptions) :
    (validateDocument d o).summary =
      generateSummary (validateDocument d o).score (validateDocument d o).issues
        (validateDocument d o).isValid := rfl

theorem ValidationResult_eq {x y : ValidationResult} (h1 : x.isValid = y.isValid)
    (h2 : x.score = y.score) (h3 : x.issues = y.issues) (h4 : x.summary = y.summary) :
    x = y := by
  cases x; cases y; simp_all

theorem validatePatientSpecificity_age_zero (d : List Char) (o : ValidationOptions)
    (h : o.patientAge = some 0) :
    ∀ i ∈ validatePatientSpecificity d o, i.severity = 2 := by
  obtain ⟨a, b, c, e, f, g⟩ := o
  simp only at h
  subst h
  intro i hi
  simp only [validatePatientSpecificity, List.mem_append] at hi
  rcases hi with ((hi | hi) | hi) | hi
  · simp at hi
  · split at hi
    · simp at hi
    · split at hi
      · simp at hi
      · exact (validateGenderSpecificity_shape d _ i hi).2
  · split at hi
    · simp at hi
    · split at hi
      · simp at hi
      · simp [validateDemographicConsiderations] at hi
  · split at hi
    · simp at hi; subst hi; rfl
    · simp at hi

theorem validateDocument_exact_mention (d : List Char) (o : ValidationOptions)
    (h : containsSub (lowerL d) (lowerL o.disease) = true) :
    exactDiseaseIssue o.disease ∈ (validateDocument d o).issues ∧
    (validateDocument d o).isValid = false := by
  have hmem : exactDiseaseIssue o.disease ∈ validateDiseaseSubtlety d o := by
    simp [validateDiseaseSubtlety, exactDiseaseIssue, h]
  have hL : exactDiseaseIssue o.disease
      ∈ (validateDiseaseSubtlety d o ++ validatePatientSpecificity d o
        ++ validateMedicalAuthenticity d ++ validateDocumentStructure d) :=
    List.mem_append_left _ (List.mem_append_left _ (List.mem_append_left _ hmem))
  constructor
  · rw [validateDocument_issues]
    exact (sortIssues_perm _).mem_iff.mpr hL
  · rw [validateDocument_isValid]
    have hany : ((validateDiseaseSubtlety d o ++ validatePatientSpecificity d o
        ++ validateMedicalAuthenticity d ++ validateDocumentStructure d).any fun issue =>
          decide (issue.type = IssueType.error) &&
          decide (issue.category = IssueCategory.disease_mention)) = true := by
      rw [List.any_eq_true]
      exact ⟨exactDiseaseIssue o.disease, hL, rfl⟩
    rw [hany]
    simp

/-- Claim C1: if the document contains `options.disease` as a case-insensitive
substring, the result's issues contain an error/disease_mention issue of
severity 10 and `isValid` is `false`. -/
theorem C1_exact_disease_mention (d : List Char) (o : ValidationOptions)
    (h : containsSub (lowerL d) (lowerL o.disease) = true) :
    (∃ i ∈ (validateDocument d o).issues,
       i.type = IssueType.error ∧ i.category = IssueCategory.disease_mention ∧ i.severity = 10) ∧
    (validateDocument d o).isValid = false := by
  obtain ⟨hm, hv⟩ := validateDocument_exact_mention d o h
  exact ⟨⟨exactDiseaseIssue o.disease, hm, rfl, rfl, rfl⟩, hv⟩

/-- Claim C3: `isValid` holds exactly when the score is at least 70 and no
returned issue is an error in the disease_mention category. -/
theorem C3_isValid_iff (d : List Char) (o : ValidationOptions) :
    (validateDocument d o).isValid = true ↔
      (70 ≤ (validateDocument d o).score ∧
       ∀ i ∈ (validateDocument d o).issues,
         ¬(i.type = IssueType.error ∧ i.category = IssueCategory.disease_mention)) := by
  rw [validateDocument_isValid]
  constructor
  · intro hv
    rw [Bool.and_eq_true] at hv
    refine ⟨by simpa using hv.1, ?_⟩
    rintro i hi ⟨ht, hc⟩
    have hi' : i ∈ (validateDiseaseSubtlety d o ++ validatePatientSpecificity d o
        ++ validateMedicalAuthenticity d ++ validateDocumentStructure d) := by
      rw [validateDocument_issues] at hi
      exact (sortIssues_perm _).mem_iff.mp hi
    have h2 := hv.2
    rw [Bool.not_eq_true', List.any_eq_false] at h2
    have hp := h2 i hi'
    rw [ht, hc] at hp
    simp at hp
  · rintro ⟨hs, hall⟩
    rw [Bool.and_eq_true]
    refine ⟨by simpa using hs, ?_⟩
    rw [Bool.not_eq_true', List.any_eq_false]
    intro i hi
    have hmem : i ∈ (validateDocument d o).issues := by
      rw [validateDocument_issues]
      exact (sortIssues_perm _).mem_iff.mpr hi
    have h2 := hall i hmem
    by_cases ht : i.type = IssueType.error
    · by_cases hc : i.category = IssueCategory.disease_mention
      · exact absurd ⟨ht, hc⟩ h2
      · simp [hc]
    · simp [ht]

/-- Claim C9: `strictMode` and `allowedDiseaseVariations` have no effect on
the validation result. -/
theorem C9_noninterference (d : List Char) (o₁ o₂ : ValidationOptions)
    (h1 : o₁.disease = o₂.disease) (h2 : o₁.patientAge = o₂.patientAge)
    (h3 : o₁.patientGender = o₂.patientGender) (h4 : o₁.patientRace = o₂.patientRace) :
    validateDocument d o₁ = validateDocument d o₂ := by
  obtain ⟨a1, b1, c1, e1, f1, g1⟩ := o₁
  obtain ⟨a2, b2, c2, e2, f2, g2⟩ := o₂
  simp only at h1 h2 h3 h4
  subst h1; subst h2; subst h3; subst h4
  have hd : validateDiseaseSubtlety d ⟨a1, b1, c1, e1, f1, g1⟩
      = validateDiseaseSubtlety d ⟨a1, b1, c1, e1, f2, g2⟩ := rfl
  have hp : validatePatientSpecificity d ⟨a1, b1, c1, e1, f1, g1⟩
      = validatePatientSpecificity d ⟨a1, b1, c1, e1, f2, g2⟩ := rfl
  have hsc : (validateDocument d ⟨a1, b1, c1, e1, f1, g1⟩).score
      = (validateDocument d ⟨a1, b1, c1, e1, f2, g2⟩).score := by
    rw [validateDocument_score, validateDocument_score, hd, hp]
  have his : (validateDocument d ⟨a1, b1, c1, e1, f1, g1⟩).issues
      = (validateDocument d ⟨a1, b1, c1, e1, f2, g2⟩).issues := by
    rw [validateDocument_issues, validateDocument_issues, hd, hp]
  have hiv : (validateDocument d ⟨a1, b1, c1, e1, f1, g1⟩).isValid
      = (validateDocument d ⟨a1, b1, c1, e1, f2, g2⟩).isValid := by
    rw [validateDocument_isValid, validateDocument_isValid, hd, hp, hsc]
  exact ValidationResult_eq hiv hsc his
    (by rw [validateDocument_summary, validateDocument_summary, hsc, his, hiv])

/-- Claim C10: with `patientAge = 0` the age-band check is skipped entirely
(JS falsiness of `0`): the result is the same as with no age at all, and no
age-appropriateness issue (the only patient_specificity issue of severity 3)
is emitted. -/
theorem C10_age_zero_skips_age_check (d : List Char) (o : ValidationOptions)
    (h : o.patientAge = some 0) :
    validateDocument d o = validateDocument d { o with patientAge := none } ∧
    ∀ i ∈ (validateDocument d o).issues,
      ¬(i.category = IssueCategory.patient_specificity ∧ i.severity = 3) := by
  constructor
  · obtain ⟨a, b, c, e, f, g⟩ := o
    simp only at h
    subst h
    have hd : validateDiseaseSubtlety d ⟨a, some 0, c, e, f, g⟩
        = validateDiseaseSubtlety d ⟨a, none, c, e, f, g⟩ := rfl
    have hp : validatePatientSpecificity d ⟨a, some 0, c, e, f, g⟩
        = validatePatientSpecificity d ⟨a, none, c, e, f, g⟩ := by
      simp [validatePatientSpecificity]
    have hsc : (validateDocument d ⟨a, some 0, c, e, f, g⟩).score
        = (validateDocument d ⟨a, none, c, e, f, g⟩).score := by
      rw [validateDocument_score, validateDocument_score, hd, hp]
    have his : (validateDocument d ⟨a, some 0, c, e, f, g⟩).issues
        = (validateDocument d ⟨a, none, c, e, f, g⟩).issues := by
      rw [validateDocument_issues, validateDocument_issues, hd, hp]
    have hiv : (validateDocument d ⟨a, some 0, c, e, f, g⟩).isValid
        = (validateDocument d ⟨a, none, c, e, f, g⟩).isValid := by
      rw [validateDocument_isValid, validateDocument_isValid, hd, hp, hsc]
    exact ValidationResult_eq hiv hsc his
      (by rw [validateDocument_summary, validateDocument_summary, hsc, his, hiv])
  · intro i hi
    rw [validateDocument_issues] at hi
    have hi' := (sortIssues_perm _).mem_iff.mp hi
    simp only [List.mem_append] at hi'
    rintro ⟨hcat, hsev⟩
    rcases hi' with ((h1 | h1) | h1) | h1
    · rw [validateDiseaseSubtlety_category d o i h1] at hcat; cases hcat
    · have := validatePatientSpecificity_age_zero d o h i h1
      rw [this] at hsev; cases hsev
    · rw [validateMedicalAuthenticity_category d i h1] at hcat; cases hcat
    · rw [validateDocumentStructure_category d i h1] at hcat; cases hcat

theorem weightedSeveritySum_append (a b : List ValidationIssue) :
    weightedSeveritySum (a ++ b) = weightedSeveritySum a + weightedSeveritySum b := by
  simp [weightedSeveritySum]

theorem sev_sum_nonneg (l : List ValidationIssue) (f : ValidationIssue → ℚ)
    (hf : ∀ i, 0 ≤ f i) : 0 ≤ (l.map f).sum := by
  apply List.sum_nonneg
  intro x hx
  obtain ⟨i, _, rfl⟩ := List.mem_map.mp hx
  exact hf i

theorem weightedSeveritySum_congr_category (l : List ValidationIssue) (c : IssueCategory)
    (h : ∀ i ∈ l, i.category = c) :
    weightedSeveritySum l = (l.map (fun i => (i.severity : ℚ) * categoryWeight c)).sum := by
  unfold weightedSeveritySum
  congr 1
  apply List.map_congr_left
  intro i hi
  rw [h i hi]

theorem round_clamp_comm (q : ℚ) (hq : 0 ≤ q) :
    max 0 (round ((100 : ℚ) - q)) = round (max 0 (min 100 ((100 : ℚ) - q))) := by
  have hmin : min 100 ((100 : ℚ) - q) = 100 - q := min_eq_right (by linarith)
  rw [hmin]
  rcases le_or_lt 0 ((100 : ℚ) - q) with hpos | hneg
  · rw [max_eq_right hpos]
    have h0 : (0 : ℤ) ≤ round ((100 : ℚ) - q) := by
      rw [round_eq]
      exact Int.le_floor.mpr (by push_cast; linarith)
    rw [max_eq_right h0]
  · rw [max_eq_left (le_of_lt hneg)]
    have h0 : round ((100 : ℚ) - q) ≤ 0 := by
      rw [round_eq]
      have hlt : ⌊(100 : ℚ) - q + 1 / 2⌋ < 1 := Int.floor_lt.mpr (by push_cast; linarith)
      omega
    rw [max_eq_left h0, round_zero]

/-- Claim C2: the score equals 100 minus the category-weighted severity sum of
all produced issues, clamped to [0, 100] and rounded to the nearest integer. -/
theorem C2_score_formula (d : List Char) (o : ValidationOptions) :
    (validateDocument d o).score =
      round (max 0 (min 100 ((100 : ℚ) - weightedSeveritySum (validateDocument d o).issues))) := by
  have hperm : weightedSeveritySum (validateDocument d o).issues
      = weightedSeveritySum (validateDiseaseSubtlety d o ++ validatePatientSpecificity d o
        ++ validateMedicalAuthenticity d ++ validateDocumentStructure d) := by
    rw [validateDocument_issues]
    exact List.Perm.sum_eq ((sortIssues_perm _).map _)
  have hd : weightedSeveritySum (validateDiseaseSubtlety d o)
      = ((validateDiseaseSubtlety d o).map (fun i => (i.severity : ℚ))).sum := by
    rw [weightedSeveritySum_congr_category _ _ (validateDiseaseSubtlety_category d o)]
    simp [categoryWeight]
  have hp : weightedSeveritySum (validatePatientSpecificity d o)
      = ((validatePatientSpecificity d o).map (fun i => (i.severity : ℚ) * 0.5)).sum := by
    rw [weightedSeveritySum_congr_category _ IssueCategory.patient_specificity
      (fun i hi => (validatePatientSpecificity_shape d o i hi).1)]
    simp [categoryWeight]
  have ha : weightedSeveritySum (validateMedicalAuthenticity d)
      = ((validateMedicalAuthenticity d).map (fun i => (i.severity : ℚ) * 0.7)).sum := by
    rw [weightedSeveritySum_congr_category _ _ (validateMedicalAuthenticity_category d)]
    simp [categoryWeight]
  have hs : weightedSeveritySum (validateDocumentStructure d)
      = ((validateDocumentStructure d).map (fun i => (i.severity : ℚ) * 0.3)).sum := by
    rw [weightedSeveritySum_congr_category _ _ (validateDocumentStructure_category d)]
    simp [categoryWeight]
  rw [hperm, weightedSeveritySum_append, weightedSeveritySum_append, weightedSeveritySum_append,
    hd, hp, ha, hs, validateDocument_score]
  have hq : 0 ≤ ((validateDiseaseSubtlety d o).map (fun i => (i.severity : ℚ))).sum
      + ((validatePatientSpecificity d o).map (fun i => (i.severity : ℚ) * 0.5)).sum
      + ((validateMedicalAuthenticity d).map (fun i => (i.severity : ℚ) * 0.7)).sum
      + ((validateDocumentStructure d).map (fun i => (i.severity : ℚ) * 0.3)).sum := by
    have n1 := sev_sum_nonneg (validateDiseaseSubtlety d o)
      (fun i => (i.severity : ℚ)) (fun i => by positivity)
    have n2 := sev_sum_nonneg (validatePatientSpecificity d o)
      (fun i => (i.severity : ℚ) * 0.5) (fun i => by positivity)
    have n3 := sev_sum_nonneg (validateMedicalAuthenticity d)
      (fun i => (i.severity : ℚ) * 0.7) (fun i => by positivity)
    have n4 := sev_sum_nonneg (validateDocumentStructure d)
      (fun i => (i.severity : ℚ) * 0.3) (fun i => by positivity)
    linarith
  have harr : (100 : ℚ)
      - ((validateDiseaseSubtlety d o).map (fun i => (i.severity : ℚ))).sum
      - ((validatePatientSpecificity d o).map (fun i => (i.severity : ℚ) * 0.5)).sum
      - ((validateMedicalAuthenticity d).map (fun i => (i.severity : ℚ) * 0.7)).sum
      - ((validateDocumentStructure d).map (fun i => (i.severity : ℚ) * 0.3)).sum
      = (100 : ℚ) - (((validateDiseaseSubtlety d o).map (fun i => (i.severity : ℚ))).sum
        + ((validatePatientSpecificity d o).map (fun i => (i.severity : ℚ) * 0.5)).sum
        + ((validateMedicalAuthenticity d).map (fun i => (i.severity : ℚ) * 0.7)).sum
        + ((validateDocumentStructure d).map (fun i => (i.severity : ℚ) * 0.3)).sum) := by
    ring
  rw [harr]
  exact round_clamp_comm _ hq

theorem generateSummary_bucket (score : ℤ) (issues : List ValidationIssue) (v : Bool) :
    (generateSummary score issues v).take (summaryBucket score).length = summaryBucket score := by
  by_cases h90 : 90 ≤ score
  · simp only [generateSummary, summaryBucket, h90, if_true]
    have hx : "Excellent SOAP document (".toList
        = "Excellent".toList ++ " SOAP document (".toList := by decide
    rw [hx, List.append_assoc]
    exact List.take_left _ _
  · by_cases h80 : 80 ≤ score
    · simp only [generateSummary, summaryBucket, h90, h80, if_true, if_false]
      have hx : "Good SOAP document (".toList
          = "Good".toList ++ " SOAP document (".toList := by decide
      rw [hx, List.append_assoc]
      exact List.take_left _ _
    · by_cases h70 : 70 ≤ score
      · simp only [generateSummary, summaryBucket, h90, h80, h70, if_true, if_false]
        have hx : "Acceptable SOAP document (".toList
            = "Acceptable".toList ++ " SOAP document (".toList := by decide
        rw [hx, List.append_assoc]
        exact List.take_left _ _
      · simp only [generateSummary, summaryBucket, h90, h80, h70, if_false]
        have hx : "Poor SOAP document (".toList
            = "Poor".toList ++ " SOAP document (".toList := by decide
        rw [hx, List.append_assoc]
        exact List.take_left _ _

/-- Claim C8: the score is an integer in [0, 100], the issues are sorted in
descending severity order, and the summary starts with the bucket word
matching the score (Excellent / Good / Acceptable / Poor). -/
theorem C8_result_invariants (d : List Char) (o : ValidationOptions) :
    (0 ≤ (validateDocument d o).score ∧ (validateDocument d o).score ≤ 100) ∧
    (validateDocument d o).issues.Pairwise (fun a b => b.severity ≤ a.severity) ∧
    (validateDocument d o).summary.take (summaryBucket (validateDocument d o).score).length
      = summaryBucket (validateDocument d o).score := by
  refine ⟨⟨?_, ?_⟩, ?_, ?_⟩
  · rw [validateDocument_score]; exact le_max_left _ _
  · rw [validateDocument_score]
    apply max_le (by norm_num)
    have n1 := sev_sum_nonneg (validateDiseaseSubtlety d o)
      (fun i => (i.severity : ℚ)) (fun i => by positivity)
    have n2 := sev_sum_nonneg (validatePatientSpecificity d o)
      (fun i => (i.severity : ℚ) * 0.5) (fun i => by positivity)
    have n3 := sev_sum_nonneg (validateMedicalAuthenticity d)
      (fun i => (i.severity : ℚ) * 0.7) (fun i => by positivity)
    have n4 := sev_sum_nonneg (validateDocumentStructure d)
      (fun i => (i.severity : ℚ) * 0.3) (fun i => by positivity)
    rw [round_eq]
    have hlt : ⌊(100 : ℚ)
        - ((validateDiseaseSubtlety d o).map (fun i => (i.severity : ℚ))).sum
        - ((validatePatientSpecificity d o).map (fun i => (i.severity : ℚ) * 0.5)).sum
        - ((validateMedicalAuthenticity d).map (fun i => (i.severity : ℚ) * 0.7)).sum
        - ((validateDocumentStructure d).map (fun i => (i.severity : ℚ) * 0.3)).sum
        + 1 / 2⌋ < 101 := Int.floor_lt.mpr (by push_cast; linarith)
    omega
  · rw [validateDocument_issues]; exact sortIssues_pairwise _
  · rw [validateDocument_summary]
    exact generateSummary_bucket _ _ _

theorem countP_ite_singleton_zero {c : Prop} [Decidable c] {p : ValidationIssue → Bool}
    {w : ValidationIssue} (hw : p w = false) :
    List.countP p (if c then [w] else []) = 0 := by
  split
  · simp [List.countP_cons, hw]
  · rfl

theorem countP_decide_eq_of_nodup {α : Type} [DecidableEq α] (l : List α) (a : α)
    (hnd : l.Nodup) (ha : a ∈ l) : l.countP (fun t => decide (t = a)) = 1 := by
  induction l with
  | nil => simp at ha
  | cons x xs ih =>
    rw [List.countP_cons]
    rcases List.mem_cons.mp ha with rfl | ha'
    · have hx : xs.countP (fun t => decide (t = a)) = 0 := by
        rw [List.countP_eq_zero]
        intro b hb
        have hne : b ≠ a := fun h => (List.nodup_cons.mp hnd).1 (h ▸ hb)
        simp [hne]
      simp [hx]
    · have hne : x ≠ a := fun h => (List.nodup_cons.mp hnd).1 (h ▸ ha')
      rw [ih (List.nodup_cons.mp hnd).2 ha']
      simp [hne]

/-- Claim C5: each SOAP section name missing (case-insensitively) from the
document yields exactly one error/structure issue of severity 8 naming that
section. -/
theorem C5_missing_section_issue (d : List Char) (o : ValidationOptions) (sect : List Char)
    (hs : sect ∈ soapSections) (hmiss : containsSub (lowerL d) sect = false) :
    (validateDocument d o).issues.countP (fun i =>
      decide (i.type = IssueType.error) && decide (i.category = IssueCategory.«structure») &&
      decide (i.severity = 8) &&
      decide (i.message = "Missing SOAP section: ".toList ++ upperL sect)) = 1 := by
  set p : ValidationIssue → Bool := fun i =>
    decide (i.type = IssueType.error) && decide (i.category = IssueCategory.«structure») &&
    decide (i.severity = 8) &&
    decide (i.message = "Missing SOAP section: ".toList ++ upperL sect) with hp
  have hperm : (validateDocument d o).issues.countP p
      = (validateDiseaseSubtlety d o ++ validatePatientSpecificity d o
        ++ validateMedicalAuthenticity d ++ validateDocumentStructure d).countP p := by
    rw [validateDocument_issues]
    exact List.Perm.countP_eq p (sortIssues_perm _)
  rw [hperm, List.countP_append, List.countP_append, List.countP_append]
  have z1 : (validateDiseaseSubtlety d o).countP p = 0 := by
    rw [List.countP_eq_zero]
    intro i hi
    simp [hp, validateDiseaseSubtlety_category d o i hi]
  have z2 : (validatePatientSpecificity d o).countP p = 0 := by
    rw [List.countP_eq_zero]
    intro i hi
    simp [hp, (validatePatientSpecificity_shape d o i hi).1]
  have z3 : (validateMedicalAuthenticity d).countP p = 0 := by
    rw [List.countP_eq_zero]
    intro i hi
    simp [hp, validateMedicalAuthenticity_category d i hi]
  have hinj : ∀ a ∈ soapSections, ∀ b ∈ soapSections, upperL a = upperL b → a = b := by decide
  have hone : (validateDocumentStructure d).countP p = 1 := by
    simp only [validateDocumentStructure]
    rw [List.countP_append, List.countP_append]
    have hz1 : List.countP p (if d.length < 200 then
        [{ type := IssueType.warning, category := IssueCategory.«structure»,
           message := "Document appears too short for a complete SOAP note".toList,
           severity := 5,
           suggestion := some "Expand the document with more clinical details".toList }]
      else []) = 0 := countP_ite_singleton_zero (by simp [hp])
    have hz2 : List.countP p (if 3000 < d.length then
        [{ type := IssueType.info, category := IssueCategory.«structure»,
           message := "Document is quite lengthy for a typical SOAP note".toList,
           severity := 2,
           suggestion := some "Consider condensing to focus on key clinical points".toList }]
      else []) = 0 := countP_ite_singleton_zero (by simp [hp])
    rw [hz1, hz2, List.countP_map]
    have hcongr : ∀ t ∈ soapSections.filter (fun sect => !containsSub (lowerL d) sect),
        ((p ∘ missingSectionIssue) t = true ↔ decide (t = sect) = true) := by
      intro t ht
      have ht' := (List.mem_filter.mp ht).1
      simp only [Function.comp, hp, missingSectionIssue, Bool.and_eq_true, decide_eq_true_eq,
        true_and, and_true]
      constructor
      · intro hmsg
        exact hinj t ht' sect hs (List.append_cancel_left hmsg)
      · intro hteq
        rw [hteq]
    rw [List.countP_congr hcongr]
    have hnd : (soapSections.filter (fun sect => !containsSub (lowerL d) sect)).Nodup :=
      List.Nodup.filter _ (by decide)
    have hm : sect ∈ soapSections.filter (fun sect => !containsSub (lowerL d) sect) :=
      List.mem_filter.mpr ⟨hs, by rw [hmiss]; rfl⟩
    exact countP_decide_eq_of_nodup _ sect hnd hm
  rw [z1, z2, z3, hone]

/-- Claim C6: a document that mentions the synonym "high blood pressure" but
never the literal disease name "hypertension" (case-insensitively) gets the
severity-7 disease_mention warning and no severity-10 disease_mention issue. -/
theorem C6_synonym_detection (d : List Char) (o : ValidationOptions)
    (hdis : o.disease = "Hypertension".toList)
    (hsyn : containsSub (lowerL d) "high blood pressure".toList = true)
    (hex : containsSub (lowerL d) "hypertension".toList = false) :
    (∃ i ∈ (validateDocument d o).issues,
       i.type = IssueType.warning ∧ i.category = IssueCategory.disease_mention ∧ i.severity = 7) ∧
    ∀ i ∈ (validateDocument d o).issues,
      i.category = IssueCategory.disease_mention → i.severity ≠ 10 := by
  have hlow : lowerL o.disease = "hypertension".toList := by rw [hdis]; rfl
  have hvar : getDiseaseVariations o.disease
      = ["high blood pressure", "htn", "elevated bp", "hypertensive"].map String.toList := by
    rw [hdis]; rfl
  have hfm : variationIssue "high blood pressure".toList
      ∈ (getDiseaseVariations o.disease).filterMap (fun variation =>
          if containsSub (lowerL d) (lowerL variation) then some (variationIssue variation)
          else none) := by
    apply List.mem_filterMap.mpr
    refine ⟨"high blood pressure".toList, by rw [hvar]; simp, ?_⟩
    have hll : lowerL "high blood pressure".toList = "high blood pressure".toList := by decide
    rw [hll, hsyn]
    simp
  have hvmem : variationIssue "high blood pressure".toList ∈ validateDiseaseSubtlety d o := by
    simp only [validateDiseaseSubtlety]
    exact List.mem_append_left _ (List.mem_append_right _ hfm)
  have hL : variationIssue "high blood pressure".toList
      ∈ (validateDiseaseSubtlety d o ++ validatePatientSpecificity d o
        ++ validateMedicalAuthenticity d ++ validateDocumentStructure d) :=
    List.mem_append_left _ (List.mem_append_left _ (List.mem_append_left _ hvmem))
  constructor
  · refine ⟨variationIssue "high blood pressure".toList, ?_, rfl, rfl, rfl⟩
    rw [validateDocument_issues]
    exact (sortIssues_perm _).mem_iff.mpr hL
  · intro i hi hcat
    rw [validateDocument_issues] at hi
    have hi' := (sortIssues_perm _).mem_iff.mp hi
    simp only [List.mem_append] at hi'
    rcases hi' with ((h1 | h1) | h1) | h1
    · have hexact : containsSub (lowerL d) (lowerL o.disease) = false := by rw [hlow]; exact hex
      rcases validateDiseaseSubtlety_severity d o hexact i h1 with h7 | h4
      · rw [h7]; decide
      · rw [h4]; decide
    · have hc := (validatePatientSpecificity_shape d o i h1).1
      rw [hc] at hcat; cases hcat
    · have hc := validateMedicalAuthenticity_category d i h1
      rw [hc] at hcat; cases hcat
    · have hc := validateDocumentStructure_category d i h1
      rw [hc] at hcat; cases hcat

theorem genLoop_first_valid (disease : List Char) (age : ℤ) (gender race : List Char)
    (behaviour : Nat → Option (List Char)) :
    ∀ (k f s : Nat) (best : Option (SOAPDocument × ValidationResult))
      (d : SOAPDocument) (v : ValidationResult),
      k < f →
      (∀ j ∈ List.range k, attemptValid disease age gender race behaviour (s + j) = false) →
      attemptDoc disease age gender race behaviour (s + k) = some (d, v) →
      v.isValid = true →
      genLoop disease age gender race true behaviour s f best = Except.ok d := by
  intro k
  induction k with
  | zero =>
    intro f s best d v hkf _hprev hdoc hvalid
    obtain ⟨f', rfl⟩ : ∃ f', f = f' + 1 := ⟨f - 1, by omega⟩
    rw [Nat.add_zero] at hdoc
    rcases hc : contentAt behaviour s with _ | content
    · simp only [attemptDoc, hc] at hdoc
      exact Option.noConfusion hdoc
    · simp only [attemptDoc, hc, Option.some.injEq, Prod.mk.injEq] at hdoc
      obtain ⟨hd, hv⟩ := hdoc
      subst hd; subst hv
      simp only [genLoop, hc, if_true]
      simp only [hvalid, if_true]
  | succ k ih =>
    intro f s best d v hkf hprev hdoc hvalid
    obtain ⟨f', rfl⟩ : ∃ f', f = f' + 1 := ⟨f - 1, by omega⟩
    have h0 : attemptValid disease age gender race behaviour s = false := by
      have := hprev 0 (by simp)
      simpa using this
    have hshift : ∀ j ∈ List.range k,
        attemptValid disease age gender race behaviour ((s + 1) + j) = false := by
      intro j hj
      have hmem : j + 1 ∈ List.range (k + 1) := by
        simp only [List.mem_range] at hj ⊢
        omega
      have := hprev (j + 1) hmem
      have harith : s + (j + 1) = (s + 1) + j := by omega
      rwa [harith] at this
    have hdoc' : attemptDoc disease age gender race behaviour ((s + 1) + k) = some (d, v) := by
      have harith : s + (k + 1) = (s + 1) + k := by omega
      rwa [harith] at hdoc
    rcases hc : contentAt behaviour s with _ | content
    · simp only [genLoop, hc]
      rw [if_neg (by omega : ¬f' = 0)]
      exact ih f' (s + 1) best d v (by omega) hshift hdoc' hvalid
    · have hvv : (validateDocument content
          (attemptValidationOptions disease age gender race s)).isValid = false := by
        simp only [attemptValid, attemptDoc, hc] at h0
        exact h0
      simp only [genLoop, hc, if_true, hvv, if_false]
      exact ih f' (s + 1) _ d v (by omega) hshift hdoc' hvalid

theorem updateBest_isSome (best : Option (SOAPDocument × ValidationResult))
    (x : SOAPDocument × ValidationResult) : (updateBest best x).isSome = true := by
  cases best with
  | none => rfl
  | some p =>
    obtain ⟨bd, bv⟩ := p
    simp only [updateBest]
    split <;> rfl

theorem genLoop_succ_none (disease : List Char) (age : ℤ) (gender race : List Char)
    (behaviour : Nat → Option (List Char)) (s f : Nat)
    (best : Option (SOAPDocument × ValidationResult))
    (hc : contentAt behaviour s = none) :
    genLoop disease age gender race true behaviour s (f + 1) best
      = if f = 0 then Except.error GenError.generationFailed
        else genLoop disease age gender race true behaviour (s + 1) f best := by
  simp only [genLoop, hc]

theorem genLoop_succ_invalid (disease : List Char) (age : ℤ) (gender race : List Char)
    (behaviour : Nat → Option (List Char)) (s f : Nat)
    (best : Option (SOAPDocument × ValidationResult)) (content : List Char)
    (hc : contentAt behaviour s = some content)
    (hvv : (validateDocument content
      (attemptValidationOptions disease age gender race s)).isValid = false) :
    genLoop disease age gender race true behaviour s (f + 1) best
      = genLoop disease age gender race true behaviour (s + 1) f
          (updateBest best
            ({ parseSOAPDocument content with
                validation := some (validateDocument content
                  (attemptValidationOptions disease age gender race s)) },
              validateDocument content (attemptValidationOptions disease age gender race s))) := by
  simp only [genLoop, hc, if_true]
  simp only [hvv]
  rfl

theorem genLoop_exhaust (disease : List Char) (age : ℤ) (gender race : List Char)
    (behaviour : Nat → Option (List Char)) :
    ∀ (f' s : Nat) (best : Option (SOAPDocument × ValidationResult)),
      (∀ j ∈ List.range (f' + 1),
        attemptValid disease age gender race behaviour (s + j) = false) →
      (attemptDoc disease age gender race behaviour (s + f')).isSome = true →
      genLoop disease age gender race true behaviour s (f' + 1) best =
        (match List.foldl updateBest best
            ((List.range (f' + 1)).filterMap
              (fun j => attemptDoc disease age gender race behaviour (s + j))) with
         | some (bd, _) => Except.ok bd
         | none => Except.error GenError.noDocumentGenerated) := by
  intro f'
  induction f' with
  | zero =>
    intro s best hall hlast
    rcases hc : contentAt behaviour s with _ | content
    · rw [Nat.add_zero] at hlast
      simp only [attemptDoc, hc] at hlast
      exact absurd hlast (by simp)
    · have hvv : (validateDocument content
          (attemptValidationOptions disease age gender race s)).isValid = false := by
        have h0 := hall 0 (by simp)
        rw [Nat.add_zero] at h0
        simp only [attemptValid, attemptDoc, hc] at h0
        exact h0
      rw [genLoop_succ_invalid disease age gender race behaviour s 0 best content hc hvv]
      simp only [genLoop]
      have hr1 : List.range 1 = [0] := rfl
      have hd0 : attemptDoc disease age gender race behaviour (s + 0)
          = some ({ parseSOAPDocument content with
                      validation := some (validateDocument content
                        (attemptValidationOptions disease age gender race s)) },
                  validateDocument content (attemptValidationOptions disease age gender race s)) := by
        rw [Nat.add_zero]
        simp only [attemptDoc, hc]
      simp only [hr1, List.filterMap_cons, List.filterMap_nil]
      rw [hd0]
      simp only [List.foldl_cons, List.foldl_nil]
  | succ f' ih =>
    intro s best hall hlast
    have hshift : ∀ j ∈ List.range (f' + 1),
        attemptValid disease age gender race behaviour ((s + 1) + j) = false := by
      intro j hj
      have hmem : j + 1 ∈ List.range (f' + 2) := by
        simp only [List.mem_range] at hj ⊢
        omega
      have := hall (j + 1) hmem
      have harith : s + (j + 1) = (s + 1) + j := by omega
      rwa [harith] at this
    have hlast' : (attemptDoc disease age gender race behaviour ((s + 1) + f')).isSome = true := by
      have harith : s + (f' + 1) = (s + 1) + f' := by omega
      rwa [harith] at hlast
    have hcands : ((List.range (f' + 1 + 1)).filterMap
          (fun j => attemptDoc disease age gender race behaviour (s + j)))
        = (match attemptDoc disease age gender race behaviour s with
           | some x => [x]
           | none => [])
          ++ ((List.range (f' + 1)).filterMap
            (fun j => attemptDoc disease age gender race behaviour ((s + 1) + j))) := by
      rw [List.range_succ_eq_map, List.filterMap_cons, List.filterMap_map]
      have hfn : ((fun j => attemptDoc disease age gender race behaviour (s + j)) ∘ Nat.succ)
          = fun j => attemptDoc disease age gender race behaviour ((s + 1) + j) := by
        funext j
        simp only [Function.comp]
        rw [show s + Nat.succ j = (s + 1) + j by omega]
      rw [hfn, Nat.add_zero]
      rcases hd : attemptDoc disease age gender race behaviour s with _ | x
      · rfl
      · rfl
    rcases hc : contentAt behaviour s with _ | content
    · have hd : attemptDoc disease age gender race behaviour s = none := by
        simp only [attemptDoc, hc]
      rw [genLoop_succ_none disease age gender race behaviour s (f' + 1) best hc,
        if_neg (by omega : ¬f' + 1 = 0), ih (s + 1) best hshift hlast', hcands, hd,
        List.nil_append]
    · have hvv : (validateDocument content
          (attemptValidationOptions disease age gender race s)).isValid = false := by
        have h0 := hall 0 (by simp)
        rw [Nat.add_zero] at h0
        simp only [attemptValid, attemptDoc, hc] at h0
        exact h0
      rw [genLoop_succ_invalid disease age gender race behaviour s (f' + 1) best content hc hvv,
        ih (s + 1) _ hshift hlast', hcands]
      simp only [attemptDoc, hc, List.cons_append, List.nil_append, List.foldl_cons]

theorem updateBest_score_le (best : Option (SOAPDocument × ValidationResult))
    (x bb : SOAPDocument × ValidationResult) (h : updateBest best x = some bb) :
    x.2.score ≤ bb.2.score ∧ ∀ c ∈ best, c.2.score ≤ bb.2.score := by
  cases best with
  | none =>
    rw [updateBest] at h
    injection h with h
    subst h
    exact ⟨le_refl _, by intro c hc; simp at hc⟩
  | some p =>
    obtain ⟨bd, bv⟩ := p
    rw [updateBest] at h
    by_cases hlt : bv.score < x.2.score
    · rw [if_pos hlt] at h
      injection h with h
      subst h
      refine ⟨le_refl _, ?_⟩
      intro c hc
      rw [Option.mem_def, Option.some.injEq] at hc
      subst hc
      exact le_of_lt hlt
    · rw [if_neg hlt] at h
      injection h with h
      subst h
      refine ⟨not_lt.mp hlt, ?_⟩
      intro c hc
      rw [Option.mem_def, Option.some.injEq] at hc
      subst hc
      exact le_refl _

theorem foldl_updateBest_isSome (l : List (SOAPDocument × ValidationResult)) :
    ∀ b : Option (SOAPDocument × ValidationResult), b.isSome = true ∨ l ≠ [] →
      (List.foldl updateBest b l).isSome = true := by
  induction l with
  | nil =>
    intro b h
    rcases h with h | h
    · simpa using h
    · simp at h
  | cons x xs ih =>
    intro b _
    rw [List.foldl_cons]
    exact ih (updateBest b x) (Or.inl (updateBest_isSome b x))

theorem foldl_updateBest_spec (l : List (SOAPDocument × ValidationResult)) :
    ∀ (b : Option (SOAPDocument × ValidationResult)) (dv : SOAPDocument × ValidationResult),
      List.foldl updateBest b l = some dv →
      (b = some dv ∧ ∀ c ∈ l, c.2.score ≤ dv.2.score) ∨
      (∃ pre post, l = pre ++ dv :: post ∧
        (∀ c ∈ pre, c.2.score < dv.2.score) ∧
        (∀ bb ∈ b, bb.2.score < dv.2.score) ∧
        (∀ c ∈ post, c.2.score ≤ dv.2.score)) := by
  induction l with
  | nil =>
    intro b dv h
    left
    refine ⟨by simpa using h, ?_⟩
    intro c hc
    simp at hc
  | cons x xs ih =>
    intro b dv h
    rw [List.foldl_cons] at h
    rcases ih (updateBest b x) dv h with ⟨hb, hall⟩ | ⟨pre, post, hsplit, hpre, hbb, hpost⟩
    · cases hbc : b with
      | none =>
        rw [hbc, updateBest] at hb
        injection hb with hb
        subst hb
        right
        refine ⟨[], xs, by simp, by simp, ?_, hall⟩
        intro bb hbb'
        simp at hbb'
      | some p =>
        obtain ⟨bd, bv⟩ := p
        rw [hbc, updateBest] at hb
        by_cases hlt : bv.score < x.2.score
        · rw [if_pos hlt] at hb
          injection hb with hb
          subst hb
          right
          refine ⟨[], xs, by simp, by simp, ?_, hall⟩
          intro bb hbb'
          rw [Option.mem_def, Option.some.injEq] at hbb'
          subst hbb'
          exact hlt
        · rw [if_neg hlt] at hb
          left
          refine ⟨hb, ?_⟩
          intro c hc
          rcases List.mem_cons.mp hc with rfl | hc
          · injection hb with hb
            rw [← hb]
            exact not_lt.mp hlt
          · exact hall c hc
    · right
      refine ⟨x :: pre, post, by rw [hsplit]; rfl, ?_, ?_, hpost⟩
      · intro c hc
        rcases List.mem_cons.mp hc with rfl | hc
        · have hsome := updateBest_isSome b c
          rcases hub : updateBest b c with _ | ub
          · rw [hub] at hsome; simp at hsome
          · have h1 := (updateBest_score_le b c ub hub).1
            have h2 := hbb ub (Option.mem_def.mpr hub)
            omega
        · exact hpre c hc
      · intro bb hbb'
        have hsome := updateBest_isSome b x
        rcases hub : updateBest b x with _ | ub
        · rw [hub] at hsome; simp at hsome
        · have h1 := (updateBest_score_le b x ub hub).2 bb hbb'
          have h2 := hbb ub (Option.mem_def.mpr hub)
          omega

theorem generateSOAPDocument_eq (options : DocumentGenerationOptions) (randAge : ℤ)
    (randMale : Bool) (behaviour : Nat → Option (List Char)) :
    generateSOAPDocument options randAge randMale behaviour
      = genLoop options.disease (resolvedAge options randAge) (resolvedGender options randMale)
          (resolvedRace options) (options.validateDocument.getD true) behaviour 0
          (resolvedMaxRetries options + 1) none := rfl

/-- Claim C4 (amended): with validation enabled, (1) the retry loop returns
the first attempt whose document validates, immediately; and (2) when no
attempt validates but the final attempt still parses a document, after
exhausting all `maxRetries + 1` attempts it returns the candidate with the
highest validation score (ties keeping the earlier one) without raising.
(The code raises `GenerationFailed` when the final attempt fails at the
collaborator level, even if earlier attempts parsed documents — the original
claim's unconditional best-of fallback fails there; see the counterexample.) -/
theorem C4_retry_policy (options : DocumentGenerationOptions) (randAge : ℤ) (randMale : Bool)
    (behaviour : Nat → Option (List Char))
    (hval : options.validateDocument.getD true = true) :
    (∀ (k : Nat) (d : SOAPDocument) (v : ValidationResult),
        k ≤ resolvedMaxRetries options →
        (∀ j ∈ List.range k, attemptValid options.disease (resolvedAge options randAge)
          (resolvedGender options randMale) (resolvedRace options) behaviour j = false) →
        attemptDoc options.disease (resolvedAge options randAge)
          (resolvedGender options randMale) (resolvedRace options) behaviour k = some (d, v) →
        v.isValid = true →
        generateSOAPDocument options randAge randMale behaviour = Except.ok d) ∧
    ((∀ j ∈ List.range (resolvedMaxRetries options + 1),
        attemptValid options.disease (resolvedAge options randAge)
          (resolvedGender options randMale) (resolvedRace options) behaviour j = false) →
      (attemptDoc options.disease (resolvedAge options randAge)
        (resolvedGender options randMale) (resolvedRace options) behaviour
        (resolvedMaxRetries options)).isSome = true →
      ∃ (d : SOAPDocument) (v : ValidationResult)
        (pre post : List (SOAPDocument × ValidationResult)),
        generateSOAPDocument options randAge randMale behaviour = Except.ok d ∧
        attemptCandidates options.disease (resolvedAge options randAge)
          (resolvedGender options randMale) (resolvedRace options) behaviour
          (resolvedMaxRetries options + 1) = pre ++ (d, v) :: post ∧
        (∀ c ∈ pre, c.2.score < v.score) ∧
        (∀ c ∈ post, c.2.score ≤ v.score)) := by
  constructor
  · intro k d v hk hprev hdoc hvalid
    rw [generateSOAPDocument_eq, hval]
    exact genLoop_first_valid options.disease (resolvedAge options randAge)
      (resolvedGender options randMale) (resolvedRace options) behaviour k
      (resolvedMaxRetries options + 1) 0 none d v (by omega)
      (fun j hj => by rw [Nat.zero_add]; exact hprev j hj)
      (by rw [Nat.zero_add]; exact hdoc) hvalid
  · intro hall hlast
    have hall0 : ∀ j ∈ List.range (resolvedMaxRetries options + 1),
        attemptValid options.disease (resolvedAge options randAge)
          (resolvedGender options randMale) (resolvedRace options) behaviour (0 + j) = false := by
      intro j hj
      rw [Nat.zero_add]
      exact hall j hj
    have hlast0 : (attemptDoc options.disease (resolvedAge options randAge)
        (resolvedGender options randMale) (resolvedRace options) behaviour
        (0 + resolvedMaxRetries options)).isSome = true := by
      rw [Nat.zero_add]
      exact hlast
    have hgen := genLoop_exhaust options.disease (resolvedAge options randAge)
      (resolvedGender options randMale) (resolvedRace options) behaviour
      (resolvedMaxRetries options) 0 none hall0 hlast0
    have hcand0 : ((List.range (resolvedMaxRetries options + 1)).filterMap
          (fun j => attemptDoc options.disease (resolvedAge options randAge)
            (resolvedGender options randMale) (resolvedRace options) behaviour (0 + j)))
        = attemptCandidates options.disease (resolvedAge options randAge)
            (resolvedGender options randMale) (resolvedRace options) behaviour
            (resolvedMaxRetries options + 1) := by
      unfold attemptCandidates
      congr 1
      funext j
      rw [Nat.zero_add]
    rw [hcand0] at hgen
    have hne : attemptCandidates options.disease (resolvedAge options randAge)
        (resolvedGender options randMale) (resolvedRace options) behaviour
        (resolvedMaxRetries options + 1) ≠ [] := by
      rcases hy : attemptDoc options.disease (resolvedAge options randAge)
          (resolvedGender options randMale) (resolvedRace options) behaviour
          (resolvedMaxRetries options) with _ | y
      · rw [hy] at hlast; simp at hlast
      · intro hnil
        have hm : y ∈ attemptCandidates options.disease (resolvedAge options randAge)
            (resolvedGender options randMale) (resolvedRace options) behaviour
            (resolvedMaxRetries options + 1) := by
          unfold attemptCandidates
          apply List.mem_filterMap.mpr
          exact ⟨resolvedMaxRetries options, by simp, hy⟩
        rw [hnil] at hm
        simp at hm
    have hsome := foldl_updateBest_isSome (attemptCandidates options.disease
      (resolvedAge options randAge) (resolvedGender options randMale) (resolvedRace options)
      behaviour (resolvedMaxRetries options + 1)) none (Or.inr hne)
    rcases hfold : List.foldl updateBest none (attemptCandidates options.disease
        (resolvedAge options randAge) (resolvedGender options randMale) (resolvedRace options)
        behaviour (resolvedMaxRetries options + 1)) with _ | dv
    · rw [hfold] at hsome; simp at hsome
    · obtain ⟨d, v⟩ := dv
      rcases foldl_updateBest_spec (attemptCandidates options.disease
          (resolvedAge options randAge) (resolvedGender options randMale)
          (resolvedRace options) behaviour (resolvedMaxRetries options + 1)) none (d, v) hfold
        with ⟨hb, _⟩ | ⟨pre, post, hsplit, hpre, _, hpost⟩
      · exact absurd hb (by simp)
      · refine ⟨d, v, pre, post, ?_, hsplit, hpre, hpost⟩
        rw [generateSOAPDocument_eq, hval, hgen, hfold]

/-- Counterexample to claim C4 as stated: with `maxRetries = 1`, attempt 0
parses a (disease-leaking, hence invalid) document and attempt 1 fails at the
collaborator level; at least one attempt produced a parsed document, yet
`generateSOAPDocument` raises `GenerationFailed` instead of returning the
best-scoring candidate. -/
theorem C4_counterexample :
    generateSOAPDocument cexOptions 0 true cexBehaviour
      = Except.error GenError.generationFailed ∧
    (attemptDoc cexOptions.disease (resolvedAge cexOptions 0) (resolvedGender cexOptions true)
      (resolvedRace cexOptions) cexBehaviour 0).isSome = true := by
  constructor
  · have hvv : (validateDocument "hypertension".toList
        (attemptValidationOptions "hypertension".toList 45 "Male".toList "White".toList
          0)).isValid = false :=
      (validateDocument_exact_mention _ _ (by decide)).2
    have step1 := genLoop_succ_invalid "hypertension".toList 45 "Male".toList "White".toList
      cexBehaviour 0 (0 + 1) none "hypertension".toList rfl hvv
    have step2 := genLoop_succ_none "hypertension".toList 45 "Male".toList "White".toList
      cexBehaviour (0 + 1) 0
      (updateBest none
        ({ parseSOAPDocument "hypertension".toList with
            validation := some (validateDocument "hypertension".toList
              (attemptValidationOptions "hypertension".toList 45 "Male".toList "White".toList
                0)) },
          validateDocument "hypertension".toList
            (attemptValidationOptions "hypertension".toList 45 "Male".toList "White".toList 0)))
      rfl
    show genLoop "hypertension".toList 45 "Male".toList "White".toList true cexBehaviour 0
      (0 + 1 + 1) none = Except.error GenError.generationFailed
    rw [step1, step2]
    rfl
  · rfl

theorem C4_retry_policy_witness :
    cexOptions.validateDocument.getD true = true ∧
    (∀ j ∈ List.range (resolvedMaxRetries cexOptions + 1),
      attemptValid cexOptions.disease (resolvedAge cexOptions 0) (resolvedGender cexOptions true)
        (resolvedRace cexOptions) wBehaviour j = false) ∧
    (attemptDoc cexOptions.disease (resolvedAge cexOptions 0) (resolvedGender cexOptions true)
      (resolvedRace cexOptions) wBehaviour (resolvedMaxRetries cexOptions)).isSome = true ∧
    ∃ (d : SOAPDocument) (v : ValidationResult)
      (pre post : List (SOAPDocument × ValidationResult)),
      generateSOAPDocument cexOptions 0 true wBehaviour = Except.ok d ∧
      attemptCandidates cexOptions.disease (resolvedAge cexOptions 0)
        (resolvedGender cexOptions true) (resolvedRace cexOptions) wBehaviour
        (resolvedMaxRetries cexOptions + 1) = pre ++ (d, v) :: post ∧
      (∀ c ∈ pre, c.2.score < v.score) ∧
      (∀ c ∈ post, c.2.score ≤ v.score) := by
  have hinv : ∀ j : Nat, attemptValid cexOptions.disease (resolvedAge cexOptions 0)
      (resolvedGender cexOptions true) (resolvedRace cexOptions) wBehaviour j = false := by
    intro j
    have hca : contentAt wBehaviour j = some "Patient has hypertension.".toList := rfl
    simp only [attemptValid, attemptDoc, hca]
    have hsub : containsSub (lowerL "Patient has hypertension.".toList)
        (lowerL (attemptValidationOptions cexOptions.disease (resolvedAge cexOptions 0)
          (resolvedGender cexOptions true) (resolvedRace cexOptions) j).disease) = true := by
      show containsSub (lowerL "Patient has hypertension.".toList)
        (lowerL "hypertension".toList) = true
      decide
    exact (validateDocument_exact_mention _ _ hsub).2
  refine ⟨rfl, fun j _ => hinv j, rfl, ?_⟩
  exact (C4_retry_policy cexOptions 0 true wBehaviour rfl).2 (fun j _ => hinv j) rfl

theorem C1_exact_disease_mention_witness :
    containsSub (lowerL "Patient has Hypertension today.".toList)
      (lowerL ({ disease := "hypertension".toList } : ValidationOptions).disease) = true ∧
    ((∃ i ∈ (validateDocument "Patient has Hypertension today.".toList
        { disease := "hypertension".toList }).issues,
       i.type = IssueType.error ∧ i.category = IssueCategory.disease_mention ∧ i.severity = 10) ∧
     (validateDocument "Patient has Hypertension today.".toList
        { disease := "hypertension".toList }).isValid = false) :=
  ⟨by decide, C1_exact_disease_mention "Patient has Hypertension today.".toList
    { disease := "hypertension".toList } (by decide)⟩

theorem C5_missing_section_issue_witness :
    "plan".toList ∈ soapSections ∧
    containsSub (lowerL "SUBJECTIVE OBJECTIVE ASSESSMENT".toList) "plan".toList = false ∧
    (validateDocument "SUBJECTIVE OBJECTIVE ASSESSMENT".toList
      { disease := "x".toList }).issues.countP (fun i =>
        decide (i.type = IssueType.error) && decide (i.category = IssueCategory.«structure») &&
        decide (i.severity = 8) &&
        decide (i.message = "Missing SOAP section: ".toList ++ upperL "plan".toList)) = 1 :=
  ⟨by decide, by decide, C5_missing_section_issue "SUBJECTIVE OBJECTIVE ASSESSMENT".toList
    { disease := "x".toList } "plan".toList (by decide) (by decide)⟩

theorem C6_synonym_detection_witness :
    ({ disease := "Hypertension".toList } : ValidationOptions).disease = "Hypertension".toList ∧
    containsSub (lowerL "He reports high blood pressure readings at home.".toList)
      "high blood pressure".toList = true ∧
    containsSub (lowerL "He reports high blood pressure readings at home.".toList)
      "hypertension".toList = false ∧
    ((∃ i ∈ (validateDocument "He reports high blood pressure readings at home.".toList
        { disease := "Hypertension".toList }).issues,
       i.type = IssueType.warning ∧ i.category = IssueCategory.disease_mention ∧ i.severity = 7) ∧
     ∀ i ∈ (validateDocument "He reports high blood pressure readings at home.".toList
        { disease := "Hypertension".toList }).issues,
       i.category = IssueCategory.disease_mention → i.severity ≠ 10) :=
  ⟨rfl, by decide, by decide,
   C6_synonym_detection "He reports high blood pressure readings at home.".toList
     { disease := "Hypertension".toList } rfl (by decide) (by decide)⟩

theorem C9_noninterference_witness :
    ({ disease := "flu".toList, strictMode := some true } : ValidationOptions).disease
      = ({ disease := "flu".toList, strictMode := some false,
           allowedDiseaseVariations := some [] } : ValidationOptions).disease ∧
    ({ disease := "flu".toList, strictMode := some true } : ValidationOptions).patientAge
      = ({ disease := "flu".toList, strictMode := some false,
           allowedDiseaseVariations := some [] } : ValidationOptions).patientAge ∧
    ({ disease := "flu".toList, strictMode := some true } : ValidationOptions).patientGender
      = ({ disease := "flu".toList, strictMode := some false,
           allowedDiseaseVariations := some [] } : ValidationOptions).patientGender ∧
    ({ disease := "flu".toList, strictMode := some true } : ValidationOptions).patientRace
      = ({ disease := "flu".toList, strictMode := some false,
           allowedDiseaseVariations := some [] } : ValidationOptions).patientRace ∧
    validateDocument "note".toList { disease := "flu".toList, strictMode := some true }
      = validateDocument "note".toList
          { disease := "flu".toList, strictMode := some false,
            allowedDiseaseVariations := some [] } :=
  ⟨rfl, rfl, rfl, rfl,
   C9_noninterference "note".toList
     { disease := "flu".toList, strictMode := some true }
     { disease := "flu".toList, strictMode := some false,
       allowedDiseaseVariations := some [] } rfl rfl rfl rfl⟩

theorem C10_age_zero_skips_age_check_witness :
    ({ disease := "flu".toList, patientAge := some 0 } : ValidationOptions).patientAge
      = some 0 ∧
    (validateDocument "note".toList { disease := "flu".toList, patientAge := some 0 }
      = validateDocument "note".toList
          { ({ disease := "flu".toList, patientAge := some 0 } : ValidationOptions) with
            patientAge := none } ∧
     ∀ i ∈ (validateDocument "note".toList
        { disease := "flu".toList, patientAge := some 0 }).issues,
       ¬(i.category = IssueCategory.patient_specificity ∧ i.severity = 3)) :=
  ⟨rfl, C10_age_zero_skips_age_check "note".toList
    { disease := "flu".toList, patientAge := some 0 } rfl⟩

theorem diseaseVariationsLookup_ne_inherited (disease : List Char)
    (h1 : lowerL disease ≠ "constructor".toList)
    (h2 : lowerL disease ≠ "__proto__".toList) :
    diseaseVariationsLookup disease ≠ DiseaseVariationsLookup.inheritedNonArray := by
  unfold diseaseVariationsLookup
  dsimp only
  split_ifs <;> simp_all

theorem validateDocumentJs_ok (d : List Char) (o : ValidationOptions)
    (h1 : lowerL o.disease ≠ "constructor".toList)
    (h2 : lowerL o.disease ≠ "__proto__".toList) :
    validateDocumentJs d o = Except.ok (validateDocument d o) := by
  rcases hl : diseaseVariationsLookup o.disease with l | _ | _
  · simp [validateDocumentJs, validateDiseaseSubtletyJs, hl]
  · exact absurd hl (diseaseVariationsLookup_ne_inherited o.disease h1 h2)
  · simp [validateDocumentJs, validateDiseaseSubtletyJs, hl]

/-- Claim C7, failing input: with `disease = "constructor"` (likewise
`"__proto__"`, any casing) the variation lookup finds the inherited truthy
`Object.prototype` member, the `|| []` fallback does not engage, and
`diseaseVariations.forEach` throws a `TypeError` — `validateDocument` raises
instead of returning a result, so the code is not total as the claim (and the
spec's "Validator never throws") requires.  On every other disease the
validator completes and `validateDocumentJs_ok` shows it returns exactly the
total model's result. -/
theorem C7_totality_failure :
    validateDocumentJs "Patient presents with fatigue.".toList
      { disease := "constructor".toList } = Except.error JsError.typeError ∧
    validateDocumentJs "Patient presents with fatigue.".toList
      { disease := "__proto__".toList } = Except.error JsError.typeError ∧
    validateDocumentJs "Patient presents with fatigue.".toList
      { disease := "Constructor".toList } = Except.error JsError.typeError :=
  ⟨rfl, rfl, rfl⟩
